import Mathlib

/-
Verification of the offline cache-and-sync subsystem of the ccsa-mobile
repository.

`OfflineCache` embeds `offlineCacheService` (setCache / getCache /
fetchWithCache / refreshInBackground and the network listener installed by
`initialize`).  `OfflineSync` embeds `offlineSyncService` (the durable farm
queue: updateFarmStatus, syncSingleFarm, syncAllFarms, getPendingCount,
setupNetworkListener, retryFailedFarm).

Modelling conventions:
- AsyncStorage is an association list with at most one binding per key; keys
  (string constants such as `@cache_farmers`) and JSON payloads are opaque
  and modelled by `Nat` identifiers.
- `Date.now()` is passed in explicitly as `now`; a single call uses one
  value of `now` for all its internal timestamps.
- A JavaScript falsy ttl (`null` or `0`) is modelled by `0`, matching the
  truthiness tests `expiryMs || cached.expiryMs` and `if (maxAge && ...)`.
- The caller-supplied `fetchFunction` is an oracle `Option Nat`
  (`some v` = the promise resolves with `v`, `none` = it rejects); the
  number of invocations is returned so that "the remote fetch is invoked"
  is expressible.  Cached payloads in the service are arrays/objects, hence
  always truthy; `if (cachedData)` is therefore modelled as an
  `Option.isSome` test.
-/

namespace OfflineCache

/-- Cache keys (the string constants in `CACHE_KEYS`), opaque. -/
abbrev Key := Nat

/-- A stored cache record, as written by `setCache`:
`{ data, timestamp: Date.now(), expiryMs }`. -/
structure CacheEntry where
  data : Nat
  timestamp : Nat
  expiryMs : Nat
  deriving DecidableEq

/-- The AsyncStorage contents relevant to the cache service. -/
abbrev Store := List (Key × CacheEntry)

/-- `JSON.parse(await AsyncStorage.getItem(key))`. -/
def findEntry (st : Store) (k : Key) : Option CacheEntry :=
  (st.find? (fun p => p.1 == k)).map (fun p => p.2)

/-- `AsyncStorage.removeItem(key)`. -/
def removeItem (st : Store) (k : Key) : Store :=
  st.filter (fun p => !(p.1 == k))

/-- `AsyncStorage.setItem(key, ...)`: overwrite the binding for `key`. -/
def setItem (st : Store) (k : Key) (e : CacheEntry) : Store :=
  (k, e) :: removeItem st k

/-- `setCache(key, data, expiryMs)`: store `{data, timestamp: now, expiryMs}`. -/
def setCache (st : Store) (k : Key) (data : Nat) (expiryMs : Nat) (now : Nat) : Store :=
  setItem st k ⟨data, now, expiryMs⟩

/-- `getCache(key, expiryMs)`: read the entry; compute
`maxAge = expiryMs || cached.expiryMs`; if `maxAge` is truthy and
`age > maxAge`, remove the entry and miss; otherwise hit.
Returns the result together with the store left behind. -/
def getCache (st : Store) (k : Key) (expiryMs : Nat) (now : Nat) :
    Option Nat × Store :=
  match findEntry st k with
  | none => (none, st)
  | some cached =>
    let maxAge := if expiryMs ≠ 0 then expiryMs else cached.expiryMs
    if maxAge ≠ 0 ∧ (maxAge : Int) < (now : Int) - (cached.timestamp : Int) then
      (none, removeItem st k)
    else
      (some cached.data, st)

/-- The effective expiry used by `getCache`: `expiryMs || cached.expiryMs`. -/
def effMaxAge (expiryMs : Nat) (c : CacheEntry) : Nat :=
  if expiryMs ≠ 0 then expiryMs else c.expiryMs

/-- The expiry test of `getCache`: `maxAge && age > maxAge`. -/
def isExpired (c : CacheEntry) (expiryMs : Nat) (now : Nat) : Prop :=
  effMaxAge expiryMs c ≠ 0 ∧
    (effMaxAge expiryMs c : Int) < (now : Int) - (c.timestamp : Int)

instance (c : CacheEntry) (expiryMs now : Nat) : Decidable (isExpired c expiryMs now) :=
  inferInstanceAs (Decidable (_ ∧ _))

/-- Error outcomes of `fetchWithCache`: the
`throw new Error('No cached data available offline')` and the re-thrown
remote-fetch rejection. -/
inductive FetchErr where
  | noCachedData
  | remoteError
  deriving DecidableEq

/-- Settled outcome of the `fetchWithCache` promise. -/
inductive FetchResult where
  | ok (v : Nat)
  | err (e : FetchErr)
  deriving DecidableEq

/-- Result of a `fetchWithCache` call: the settled promise, the store it
leaves behind, and how many times `fetchFunction` was invoked. -/
structure FetchOutcome where
  result : FetchResult
  store : Store
  remoteCalls : Nat
  deriving DecidableEq

/-- The final block of `fetchWithCache`: invoke `fetchFunction`; on success
`setCache` and return the data; on rejection fall back to
`getCache(cacheKey, null)` and otherwise re-throw. -/
def fetchFresh (st : Store) (k : Key) (remote : Option Nat) (expiryMs : Nat)
    (now : Nat) : FetchOutcome :=
  match remote with
  | some v => ⟨.ok v, setCache st k v expiryMs now, 1⟩
  | none =>
    match getCache st k 0 now with
    | (some d, st') => ⟨.ok d, st', 1⟩
    | (none, st') => ⟨.err .remoteError, st', 1⟩

/-- `fetchWithCache(cacheKey, fetchFunction, expiryMs, forceRefresh)` with the
connectivity check (`checkOnline`) reporting `online`.  When a cache hit is
served online, `refreshInBackground` is inlined: it invokes `fetchFunction`
once, stores the result on success and swallows a rejection. -/
def fetchWithCache (st : Store) (k : Key) (remote : Option Nat) (expiryMs : Nat)
    (forceRefresh : Bool) (online : Bool) (now : Nat) : FetchOutcome :=
  if online = false then
    match getCache st k expiryMs now with
    | (some d, st') => ⟨.ok d, st', 0⟩
    | (none, st') => ⟨.err .noCachedData, st', 0⟩
  else if forceRefresh = false then
    match getCache st k expiryMs now with
    | (some d, st') =>
      match remote with
      | some v => ⟨.ok d, setCache st' k v expiryMs now, 1⟩
      | none => ⟨.ok d, st', 1⟩
    | (none, st') => fetchFresh st' k remote expiryMs now
  else
    fetchFresh st k remote expiryMs now

theorem getCache_find_none {st : Store} {k : Key} (expiryMs now : Nat)
    (h : findEntry st k = none) : getCache st k expiryMs now = (none, st) := by
  unfold getCache
  rw [h]

theorem getCache_find_some {st : Store} {k : Key} {c : CacheEntry}
    (expiryMs now : Nat) (h : findEntry st k = some c) :
    getCache st k expiryMs now =
      if isExpired c expiryMs now then (none, removeItem st k)
      else (some c.data, st) := by
  unfold getCache isExpired effMaxAge
  rw [h]

theorem find?_key_removeItem (st : Store) (k k' : Key) :
    List.find? (fun p => p.1 == k') (removeItem st k) =
      if k' = k then none else List.find? (fun p => p.1 == k') st := by
  induction st with
  | nil => simp [removeItem]
  | cons p st ih =>
    simp only [removeItem, List.filter_cons] at ih ⊢
    by_cases hp : p.1 = k <;> by_cases hk : k' = k <;>
      simp_all [List.find?_cons, beq_eq_false_iff_ne, Ne.symm]

theorem findEntry_removeItem_self (st : Store) (k : Key) :
    findEntry (removeItem st k) k = none := by
  simp [findEntry, find?_key_removeItem]

theorem findEntry_removeItem_ne (st : Store) {k k' : Key} (h : k' ≠ k) :
    findEntry (removeItem st k) k' = findEntry st k' := by
  simp [findEntry, find?_key_removeItem, h]

theorem findEntry_setItem_self (st : Store) (k : Key) (e : CacheEntry) :
    findEntry (setItem st k e) k = some e := by
  simp [findEntry, setItem]

theorem findEntry_setItem_ne (st : Store) {k k' : Key} (e : CacheEntry)
    (h : k' ≠ k) : findEntry (setItem st k e) k' = findEntry st k' := by
  have h2 : (k == k') = false := by simp [Ne.symm h]
  simp only [findEntry, setItem, List.find?_cons, h2]
  simpa [findEntry] using findEntry_removeItem_ne st h

/-- Claim C9: `getCache(key, ttlMsOverride)` computes the effective expiry as
`ttlMsOverride || storedTtl`: a truthy override replaces the stored ttl, and a
falsy override (`null`/`0`) falls back to the entry's stored `expiryMs`, so
expiry checking cannot be turned off for an entry stored with a ttl. -/
theorem getCache_effective_ttl (st : Store) (k : Key) (c : CacheEntry)
    (expiryMs now : Nat) (h : findEntry st k = some c) :
    (expiryMs ≠ 0 → getCache st k expiryMs now =
      (if (expiryMs : Int) < (now : Int) - (c.timestamp : Int)
        then (none, removeItem st k) else (some c.data, st))) ∧
    (getCache st k 0 now =
      (if c.expiryMs ≠ 0 ∧ (c.expiryMs : Int) < (now : Int) - (c.timestamp : Int)
        then (none, removeItem st k) else (some c.data, st))) := by
  constructor
  · intro ho
    rw [getCache_find_some expiryMs now h]
    simp [isExpired, effMaxAge, ho]
  · rw [getCache_find_some 0 now h]
    simp [isExpired, effMaxAge]

theorem getCache_effective_ttl_witness :
    getCache [(1, CacheEntry.mk 5 0 100)] 1 0 200 =
      (none, removeItem [(1, CacheEntry.mk 5 0 100)] 1) := by
  have h := (getCache_effective_ttl [(1, CacheEntry.mk 5 0 100)] 1
    (CacheEntry.mk 5 0 100) 7 200 rfl).2
  rw [h]
  decide

theorem fetchWithCache_offline_eq (st : Store) (k : Key) (remote : Option Nat)
    (expiryMs : Nat) (force : Bool) (now : Nat) :
    fetchWithCache st k remote expiryMs force false now =
      match getCache st k expiryMs now with
      | (some d, st') => ⟨.ok d, st', 0⟩
      | (none, st') => ⟨.err .noCachedData, st', 0⟩ := rfl

theorem fetchWithCache_online_noforce_eq (st : Store) (k : Key)
    (remote : Option Nat) (expiryMs : Nat) (now : Nat) :
    fetchWithCache st k remote expiryMs false true now =
      match getCache st k expiryMs now with
      | (some d, st') =>
        match remote with
        | some v => ⟨.ok d, setCache st' k v expiryMs now, 1⟩
        | none => ⟨.ok d, st', 1⟩
      | (none, st') => fetchFresh st' k remote expiryMs now := rfl

theorem fetchWithCache_force_eq (st : Store) (k : Key) (remote : Option Nat)
    (expiryMs : Nat) (now : Nat) :
    fetchWithCache st k remote expiryMs true true now =
      fetchFresh st k remote expiryMs now := rfl

/-- Claim C1 (amended): while offline, `fetchWithCache` never invokes the
remote fetch; it returns the previously cached value only when the entry is
unexpired under the effective ttl (`ttlMs` override if truthy, otherwise the
stored ttl).  An entry that is expired under the effective ttl is deleted and
the call fails with `NoCachedData` even though a value was previously cached
for the key; when no entry exists the call also fails with `NoCachedData`. -/
theorem fetchWithCache_offline (st : Store) (k : Key) (remote : Option Nat)
    (expiryMs : Nat) (force : Bool) (now : Nat) :
    (fetchWithCache st k remote expiryMs force false now).remoteCalls = 0 ∧
    (findEntry st k = none →
      (fetchWithCache st k remote expiryMs force false now).result =
        .err .noCachedData) ∧
    (∀ c, findEntry st k = some c → ¬ isExpired c expiryMs now →
      (fetchWithCache st k remote expiryMs force false now).result =
        .ok c.data) ∧
    (∀ c, findEntry st k = some c → isExpired c expiryMs now →
      (fetchWithCache st k remote expiryMs force false now).result =
          .err .noCachedData ∧
        findEntry (fetchWithCache st k remote expiryMs force false now).store
          k = none) := by
  rw [fetchWithCache_offline_eq]
  refine ⟨?_, ?_, ?_, ?_⟩
  · rcases hf : findEntry st k with _ | c
    · rw [getCache_find_none expiryMs now hf]
    · rw [getCache_find_some expiryMs now hf]
      by_cases he : isExpired c expiryMs now <;> simp [he]
  · intro hf
    rw [getCache_find_none expiryMs now hf]
  · intro c hf he
    rw [getCache_find_some expiryMs now hf]
    simp [he]
  · intro c hf he
    rw [getCache_find_some expiryMs now hf]
    simp [he, findEntry_removeItem_self]

theorem fetchWithCache_offline_witness :
    (fetchWithCache [(1, CacheEntry.mk 5 0 100)] 1 none 0 false false 200).result =
        .err .noCachedData ∧
      findEntry
        (fetchWithCache [(1, CacheEntry.mk 5 0 100)] 1 none 0 false false
          200).store 1 = none := by
  have h := (fetchWithCache_offline [(1, CacheEntry.mk 5 0 100)] 1 none 0
    false 200).2.2.2 (CacheEntry.mk 5 0 100) rfl (by decide)
  exact h

/-- Claim C1, counterexample to the original statement: the key `1` has a
previously cached value (`5`, stored with ttl `100`), yet an offline
`fetchWithCache` at time `200` fails with `NoCachedData` instead of
returning it. -/
theorem offline_expired_entry_fails :
    (findEntry [(1, CacheEntry.mk 5 0 100)] 1).isSome = true ∧
    (fetchWithCache [(1, CacheEntry.mk 5 0 100)] 1 none 0 false false
      200).result = .err .noCachedData := by
  decide

/-- Claim C2, evaluated at the failing input: the key `1` holds a previously
cached value (`5`, stored at time `0` with stored ttl `100`); at time `200`,
online, the remote fetch rejects, and the call propagates the rejection
instead of returning the cached value — on the `forceRefresh` path and on the
ordinary path alike (the expired entry is even deleted by the failed cache
check that precedes the fetch). -/
theorem online_reject_expired_fallback_eval :
    (findEntry [(1, CacheEntry.mk 5 0 100)] 1).isSome = true ∧
    (fetchWithCache [(1, CacheEntry.mk 5 0 100)] 1 none 0 true true
      200).result = .err .remoteError ∧
    (fetchWithCache [(1, CacheEntry.mk 5 0 100)] 1 none 0 false true
      200).result = .err .remoteError := by
  decide

/-- Claim C6 (amended): a `fetchWithCache` call immediately after a successful
`setCache(key, v, ttl)` with `ttl` not yet elapsed, while online and with
`forceRefresh` false, returns `v` — but it does invoke the remote fetch,
exactly once, as a background refresh: a resolved background fetch overwrites
the cache entry and a rejected one leaves it in place, while the value
returned to the caller is `v` either way. -/
theorem fetchWithCache_fresh_hit (st : Store) (k : Key) (v ttl now now' : Nat)
    (remote : Option Nat) (httl : ttl ≠ 0)
    (hfresh : (now' : Int) - (now : Int) ≤ (ttl : Int)) :
    (fetchWithCache (setCache st k v ttl now) k remote ttl false true
        now').result = .ok v ∧
    (fetchWithCache (setCache st k v ttl now) k remote ttl false true
        now').remoteCalls = 1 ∧
    (∀ w, remote = some w →
      findEntry (fetchWithCache (setCache st k v ttl now) k remote ttl false
        true now').store k = some ⟨w, now', ttl⟩) ∧
    (remote = none →
      findEntry (fetchWithCache (setCache st k v ttl now) k remote ttl false
        true now').store k = some ⟨v, now, ttl⟩) := by
  have hf : findEntry (setCache st k v ttl now) k = some ⟨v, now, ttl⟩ :=
    findEntry_setItem_self st k ⟨v, now, ttl⟩
  have hne : ¬ isExpired ⟨v, now, ttl⟩ ttl now' := by
    rintro ⟨h1, h2⟩
    simp [effMaxAge] at h2
    omega
  rw [fetchWithCache_online_noforce_eq]
  rw [getCache_find_some ttl now' hf]
  rcases remote with _ | w
  · simp [hne, hf]
  · simp [hne, findEntry_setItem_self, setCache]

theorem fetchWithCache_fresh_hit_witness :
    (fetchWithCache (setCache [] 1 5 100 0) 1 (some 9) 100 false true
        50).result = .ok 5 ∧
    (fetchWithCache (setCache [] 1 5 100 0) 1 (some 9) 100 false true
        50).remoteCalls = 1 ∧
    findEntry (fetchWithCache (setCache [] 1 5 100 0) 1 (some 9) 100 false
        true 50).store 1 = some ⟨9, 50, 100⟩ := by
  have h := fetchWithCache_fresh_hit [] 1 5 100 0 50 (some 9) (by decide)
    (by decide)
  exact ⟨h.1, h.2.1, h.2.2.1 9 rfl⟩

/-- Claim C6, counterexample to the original statement: after
`setCache(1, 5, 100)` at time `0`, an online non-forced `fetchWithCache` at
time `50` returns the cached `5` but invokes the remote fetch function once
(`remoteCalls = 1`), contrary to "without invoking the remote fetch". -/
theorem fresh_hit_invokes_remote :
    (fetchWithCache (setCache [] 1 5 100 0) 1 (some 9) 100 false true
      50).result = .ok 5 ∧
    (fetchWithCache (setCache [] 1 5 100 0) 1 (some 9) 100 false true
      50).remoteCalls = 1 := by
  decide

theorem getCache_store_ne {k k' : Key} (st : Store) (expiryMs now : Nat)
    (h : k' ≠ k) :
    findEntry (getCache st k expiryMs now).2 k' = findEntry st k' := by
  rcases hf : findEntry st k with _ | c
  · rw [getCache_find_none expiryMs now hf]
  · rw [getCache_find_some expiryMs now hf]
    by_cases he : isExpired c expiryMs now
    · simp [he, findEntry_removeItem_ne st h]
    · simp [he]

theorem fetchFresh_store_ne {k k' : Key} (st : Store) (remote : Option Nat)
    (expiryMs now : Nat) (h : k' ≠ k) :
    findEntry (fetchFresh st k remote expiryMs now).store k' =
      findEntry st k' := by
  rcases remote with _ | v
  · rcases hg : getCache st k 0 now with ⟨d, st'⟩
    have hst' : findEntry st' k' = findEntry st k' := by
      have h2 := getCache_store_ne st 0 now h
      rw [hg] at h2
      exact h2
    rcases d with _ | d <;> simp [fetchFresh, hg, hst']
  · simp [fetchFresh, setCache, findEntry_setItem_ne st _ h]

theorem fetchWithCache_store_ne {k k' : Key} (st : Store)
    (remote : Option Nat) (expiryMs : Nat) (force online : Bool) (now : Nat)
    (h : k' ≠ k) :
    findEntry (fetchWithCache st k remote expiryMs force online now).store
      k' = findEntry st k' := by
  rcases hg : getCache st k expiryMs now with ⟨d, st'⟩
  have hst' : findEntry st' k' = findEntry st k' := by
    have h2 := getCache_store_ne st expiryMs now h
    rw [hg] at h2
    exact h2
  cases online with
  | false =>
    rw [fetchWithCache_offline_eq]
    rcases d with _ | d <;> simp [hg, hst']
  | true =>
    cases force with
    | false =>
      rw [fetchWithCache_online_noforce_eq]
      rcases d with _ | d
      · simp [hg, fetchFresh_store_ne st' remote expiryMs now h, hst']
      · rcases remote with _ | v <;>
          simp [hg, hst', setCache, findEntry_setItem_ne st' _ h]
    | true =>
      rw [fetchWithCache_force_eq]
      exact fetchFresh_store_ne st remote expiryMs now h

/-- Claim C5 (amended): `fetchWithCache` never removes a cache entry stored
under a key other than the one it fetches, and never removes an entry for its
own key that is unexpired with respect to both the call's ttl override and
the entry's stored ttl (such an entry stays present, possibly overwritten by
a fresher payload).  Only an entry that one of the call's `getCache` checks
finds expired is deleted from the store. -/
theorem fetchWithCache_preserves_entries (st : Store) (k : Key)
    (remote : Option Nat) (expiryMs : Nat) (force online : Bool) (now : Nat)
    (k' : Key) (c : CacheEntry) (hc : findEntry st k' = some c)
    (hk : k' ≠ k ∨ (¬ isExpired c expiryMs now ∧ ¬ isExpired c 0 now)) :
    (findEntry (fetchWithCache st k remote expiryMs force online now).store
      k').isSome = true := by
  rcases hk with hne | ⟨he1, he0⟩
  · rw [fetchWithCache_store_ne st remote expiryMs force online now hne, hc]
    rfl
  · rcases eq_or_ne k' k with rfl | hne
    · have hg1 : getCache st k' expiryMs now = (some c.data, st) := by
        rw [getCache_find_some expiryMs now hc]
        simp [he1]
      have hg0 : getCache st k' 0 now = (some c.data, st) := by
        rw [getCache_find_some 0 now hc]
        simp [he0]
      cases online with
      | false =>
        rw [fetchWithCache_offline_eq, hg1]
        simp [hc]
      | true =>
        cases force with
        | false =>
          rw [fetchWithCache_online_noforce_eq, hg1]
          rcases remote with _ | v
          · simp [hc]
          · simp [setCache, findEntry_setItem_self]
        | true =>
          rw [fetchWithCache_force_eq]
          rcases remote with _ | v
          · simp [fetchFresh, hg0, hc]
          · simp [fetchFresh, setCache, findEntry_setItem_self]
    · rw [fetchWithCache_store_ne st remote expiryMs force online now hne, hc]
      rfl

theorem fetchWithCache_preserves_entries_witness :
    (findEntry
      (fetchWithCache [(1, CacheEntry.mk 5 0 100), (2, CacheEntry.mk 7 0 10)]
        1 (some 9) 100 false true 50).store 2).isSome = true := by
  have h := fetchWithCache_preserves_entries
    [(1, CacheEntry.mk 5 0 100), (2, CacheEntry.mk 7 0 10)] 1 (some 9) 100
    false true 50 2 (CacheEntry.mk 7 0 10) (by decide) (Or.inl (by decide))
  exact h

/-- Claim C5, counterexample to the original statement: the store holds an
entry for key `1` before the call, and an offline `fetchWithCache` at time
`200` (past the entry's stored ttl `100`) deletes it: the entry is no longer
present in the store afterwards. -/
theorem fetchWithCache_deletes_expired :
    (findEntry [(1, CacheEntry.mk 5 0 100)] 1).isSome = true ∧
    findEntry (fetchWithCache [(1, CacheEntry.mk 5 0 100)] 1 none 0 false
      false 200).store 1 = none := by
  decide

end OfflineCache

namespace OfflineSync

/-- Farm queue status strings: `pending | syncing | synced | failed`. -/
inductive FarmStatus where
  | pending
  | syncing
  | synced
  | failed
  deriving DecidableEq

/-- A queued offline farm as written by `saveFarmOffline`.  The offline id
string and the `farmerId`/`farmData` payloads are opaque `Nat` identifiers;
ISO timestamps are `Nat` instants.  The display-only `farmer` field is
omitted. -/
structure OfflineFarm where
  id : Nat
  farmerId : Nat
  farmData : Nat
  timestamp : Nat
  status : FarmStatus
  retryCount : Nat
  lastError : Option String
  lastAttempt : Option Nat
  deriving DecidableEq

/-- The parsed contents of `@offline_farms` in AsyncStorage. -/
abbrev Queue := List OfflineFarm

/-- Outcome of `farmService.createFarm(farmerId, farmData)`. -/
inductive WriteOutcome where
  | ok
  | err (msg : String)
  deriving DecidableEq

/-- Oracle for the remote writer: the settled outcome of
`farmService.createFarm` per `(farmerId, farmData)` payload. -/
abbrev RemoteWriter := Nat → Nat → WriteOutcome

/-- `farms.find(f => f.id === offlineId)`. -/
def qfind (q : Queue) (i : Nat) : Option OfflineFarm :=
  q.find? (fun f => f.id == i)

/-- The per-farm record rewrite performed by `updateFarmStatus`:
set `status` and `lastError`, increment `retryCount` exactly when the new
status is `failed`, stamp `lastAttempt`. -/
def applyUpdate (status : FarmStatus) (err : Option String) (now : Nat)
    (f : OfflineFarm) : OfflineFarm :=
  { f with
    status := status
    lastError := err
    retryCount := if status = .failed then f.retryCount + 1 else f.retryCount
    lastAttempt := some now }

/-- `updateFarmStatus(offlineId, status, error)`: map over the stored queue,
rewriting every farm whose id matches. -/
def updateFarmStatus (q : Queue) (i : Nat) (status : FarmStatus)
    (err : Option String) (now : Nat) : Queue :=
  q.map (fun f => if f.id = i then applyUpdate status err now f else f)

/-- `removeOfflineFarm(offlineId)`. -/
def removeOfflineFarm (q : Queue) (i : Nat) : Queue :=
  q.filter (fun f => !(f.id == i))

/-- `getPendingCount()`: farms with status `pending` or `failed`. -/
def getPendingCount (q : Queue) : Nat :=
  (q.filter (fun f => f.status == .pending || f.status == .failed)).length

/-- Result record of `syncSingleFarm`. -/
structure SyncResult where
  success : Bool
  farmId : Nat
  error : Option String
  deriving DecidableEq

/-- `syncSingleFarm(offlineFarm)`: mark `syncing`; call the remote writer; on
success mark `synced` and remove from the queue; on rejection mark `failed`
with the error message. -/
def syncSingleFarm (r : RemoteWriter) (q : Queue) (f : OfflineFarm)
    (now : Nat) : Queue × SyncResult :=
  let q1 := updateFarmStatus q f.id .syncing none now
  match r f.farmerId f.farmData with
  | .ok =>
    let q2 := updateFarmStatus q1 f.id .synced none now
    (removeOfflineFarm q2 f.id, ⟨true, f.id, none⟩)
  | .err msg =>
    (updateFarmStatus q1 f.id .failed (some msg) now, ⟨false, f.id, some msg⟩)

/-- The selection filter of `syncAllFarms`:
`(status === 'pending' || status === 'failed') && retryCount < 5`. -/
def isSelected (f : OfflineFarm) : Bool :=
  (f.status == .pending || f.status == .failed) && decide (f.retryCount < 5)

/-- Observable events of the replay loop: one remote-writer invocation per
farm and the `setTimeout(500)` pause after each. -/
inductive SyncEv where
  | write (farmerId farmData : Nat)
  | delay (ms : Nat)
  deriving DecidableEq

/-- The sequential `for (const farm of pendingFarms)` loop of `syncAllFarms`:
process the snapshot list one farm at a time, threading the stored queue,
collecting the per-farm results and the event trace. -/
def syncLoop (r : RemoteWriter) (now : Nat) :
    Queue → List OfflineFarm → Queue × List SyncResult × List SyncEv
  | q, [] => (q, [], [])
  | q, g :: gs =>
    let p := syncSingleFarm r q g now
    let rest := syncLoop r now p.1 gs
    (rest.1, p.2 :: rest.2.1,
      SyncEv.write g.farmerId g.farmData :: SyncEv.delay 500 :: rest.2.2)

/-- Summary record returned by `syncAllFarms`. -/
structure ReplayResult where
  success : Bool
  message : String
  synced : Nat
  failed : Nat
  pending : Nat
  deriving DecidableEq

/-- `syncAllFarms()` with the connectivity check reporting `connected`:
no-op when offline; select `pending`/`failed` farms with `retryCount < 5`;
replay them sequentially; report counts.  Returns the queue left in
AsyncStorage, the summary, and the event trace. -/
def syncAllFarms (connected : Bool) (r : RemoteWriter) (q : Queue)
    (now : Nat) : Queue × ReplayResult × List SyncEv :=
  if connected = false then
    (q, ⟨false, "No network connection", 0, 0, getPendingCount q⟩, [])
  else
    let pendingFarms := q.filter isSelected
    if pendingFarms.isEmpty then
      (q, ⟨true, "No farms to sync", 0, 0, 0⟩, [])
    else
      let res := syncLoop r now q pendingFarms
      let syncedCount := (res.2.1.filter (fun x => x.success)).length
      let failedCount := (res.2.1.filter (fun x => !x.success)).length
      (res.1,
        ⟨decide (0 < syncedCount),
          toString syncedCount ++ " farms synced successfully", syncedCount,
          failedCount, getPendingCount res.1⟩,
        res.2.2)

/-- Outcome of `retryFailedFarm` (resolved value or thrown error message). -/
inductive RetryResult where
  | ok (p : Queue × SyncResult)
  | err (msg : String)
  deriving DecidableEq

/-- `retryFailedFarm(offlineId)` with the connectivity check reporting
`connected`: unknown id, non-failed status and offline each throw, in that
order; otherwise the farm is replayed via `syncSingleFarm`. -/
def retryFailedFarm (q : Queue) (i : Nat) (connected : Bool)
    (r : RemoteWriter) (now : Nat) : RetryResult :=
  match qfind q i with
  | none => .err "Farm not found"
  | some farm =>
    if farm.status ≠ .failed then .err "Farm is not in failed state"
    else if connected = false then .err "No network connection"
    else .ok (syncSingleFarm r q farm now)

/-- A NetInfo connectivity event. -/
structure NetEvent where
  isConnected : Bool
  isInternetReachable : Option Bool
  deriving DecidableEq

/-- One step of the NetInfo listener installed by
`offlineCacheService.initialize()`: `wasOffline = !this.isOnline`; the new
`isOnline` is `state.isConnected && state.isInternetReachable !== false`;
`syncAll()` is triggered when `!wasOffline && this.isOnline`.  Returns the
new `isOnline` flag and whether `syncAll` was invoked. -/
def cacheListenerStep (isOnline : Bool) (e : NetEvent) : Bool × Bool :=
  let wasOffline := !isOnline
  let newOnline := e.isConnected && !(e.isInternetReachable == some false)
  (newOnline, !wasOffline && newOnline)

/-- Run the `initialize()` listener over a sequence of connectivity events
(the module initialises `isOnline` to `true`); the result lists, per event,
whether `syncAll` was triggered. -/
def cacheListenerRun (isOnline : Bool) : List NetEvent → List Bool
  | [] => []
  | e :: es =>
    let p := cacheListenerStep isOnline e
    p.2 :: cacheListenerRun p.1 es

/-- `setupNetworkListener(onSync)`: skip the very first event
(`isFirstConnection`); afterwards, whenever an event reports
`isConnected && isInternetReachable` and `getPendingCount() > 0`, invoke
`syncAllFarms()`.  Returns the final queue and, per event, whether
`syncAllFarms` was invoked. -/
def syncListenerRun (r : RemoteWriter) (now : Nat) :
    Bool → Queue → List NetEvent → Queue × List Bool
  | _, q, [] => (q, [])
  | isFirst, q, e :: es =>
    if isFirst then
      let rest := syncListenerRun r now false q es
      (rest.1, false :: rest.2)
    else if e.isConnected && (e.isInternetReachable == some true) then
      if 0 < getPendingCount q then
        let res := syncAllFarms true r q now
        let rest := syncListenerRun r now false res.1 es
        (rest.1, true :: rest.2)
      else
        let rest := syncListenerRun r now false q es
        (rest.1, false :: rest.2)
    else
      let rest := syncListenerRun r now false q es
      (rest.1, false :: rest.2)

/-- A remote writer that always rejects. -/
def rejectAll : RemoteWriter := fun _ _ => .err "Network request failed"

/-- Iterated automatic replay: `syncAllFarms` once per online window, with
the remote-writer oracle of each window. -/
def replayPasses (now : Nat) (rs : List RemoteWriter) (q : Queue) : Queue :=
  rs.foldl (fun q r => (syncAllFarms true r q now).1) q

/-- The net effect of a failed `syncSingleFarm` on its farm: the `syncing`
rewrite followed by the `failed` rewrite. -/
def failUpdate (msg : String) (now : Nat) (f : OfflineFarm) : OfflineFarm :=
  { f with
    status := .failed
    lastError := some msg
    retryCount := f.retryCount + 1
    lastAttempt := some now }

/-- Claim C8 (amended): `getPendingCount` counts exactly the queued
operations whose status is `pending` or `failed` — equivalently, those whose
status is neither the terminal success state (`synced`) nor the in-flight
state (`syncing`); an operation currently in flight is not counted. -/
theorem getPendingCount_spec (q : Queue) :
    getPendingCount q =
      (q.filter
        (fun f => !(f.status == .synced) && !(f.status == .syncing))).length := by
  induction q with
  | nil => rfl
  | cons f q ih =>
    simp only [getPendingCount, List.filter_cons] at ih ⊢
    cases hs : f.status <;> simp [hs, ih]

/-- Claim C8, counterexample to the original statement: a queue holding one
operation with status `syncing` (in flight, not yet synced) has
`getPendingCount = 0`, although the number of operations not yet in the
terminal success state is `1`. -/
theorem pendingCount_excludes_syncing :
    getPendingCount [⟨1, 7, 8, 0, .syncing, 0, none, none⟩] = 0 ∧
    ([(⟨1, 7, 8, 0, .syncing, 0, none, none⟩ : OfflineFarm)].filter
      (fun f => !(f.status == .synced))).length = 1 := by
  decide

/-- Claim C3, evaluated at the failing inputs.  For the listener installed by
`offlineCacheService.initialize()` (initial `isOnline = true`): a genuine
offline→online transition — an offline event followed by an online event —
never triggers `syncAll` (the guard `!wasOffline && this.isOnline` is
inverted), while a single online observation with no preceding offline state
does trigger it.  For `offlineSyncService.setupNetworkListener` with one
pending farm: the first event is skipped, but a second online event triggers
`syncAllFarms` even though the state was already online, i.e. without any
offline→online transition. -/
theorem networkListener_trigger_eval :
    cacheListenerRun true [⟨false, some false⟩, ⟨true, some true⟩] =
      [false, false] ∧
    cacheListenerRun true [⟨true, some true⟩] = [true] ∧
    (syncListenerRun rejectAll 0 true [⟨1, 7, 8, 0, .pending, 0, none, none⟩]
      [⟨true, some true⟩, ⟨true, some true⟩]).2 = [false, true] := by
  decide

/-- `true` exactly on remote-writer invocation events. -/
def isWrite : SyncEv → Bool
  | .write _ _ => true
  | .delay _ => false

theorem syncLoop_trace (r : RemoteWriter) (now : Nat) :
    ∀ (gs : List OfflineFarm) (q : Queue),
      (syncLoop r now q gs).2.2 =
        (gs.map
          (fun g => [SyncEv.write g.farmerId g.farmData,
            SyncEv.delay 500])).flatten := by
  intro gs
  induction gs with
  | nil => intro q; rfl
  | cons g gs ih => intro q; simp [syncLoop, ih]

theorem writes_of_interleaved (gs : List OfflineFarm) :
    ((gs.map (fun g => [SyncEv.write g.farmerId g.farmData,
        SyncEv.delay 500])).flatten.filter isWrite) =
      gs.map (fun g => SyncEv.write g.farmerId g.farmData) := by
  induction gs with
  | nil => rfl
  | cons g gs ih => simp [isWrite, ih]

/-- Claim C7: a `syncAllFarms` pass while connected replays the selected
pending/failed operations strictly sequentially in queue order: its event
trace is exactly one remote-writer invocation per selected operation, in the
order of the filtered queue, each followed by the fixed 500 ms delay; in
particular the writer invocations are exactly one per operation and in queue
order.  (The loop awaits each invocation before starting the next, so the
sequential trace also witnesses that no two invocations are in flight
concurrently.) -/
theorem syncAllFarms_sequential (r : RemoteWriter) (q : Queue) (now : Nat) :
    (syncAllFarms true r q now).2.2 =
      ((q.filter isSelected).map
        (fun g => [SyncEv.write g.farmerId g.farmData,
          SyncEv.delay 500])).flatten ∧
    ((syncAllFarms true r q now).2.2.filter isWrite) =
      (q.filter isSelected).map
        (fun g => SyncEv.write g.farmerId g.farmData) := by
  have htr : (syncAllFarms true r q now).2.2 =
      ((q.filter isSelected).map
        (fun g => [SyncEv.write g.farmerId g.farmData,
          SyncEv.delay 500])).flatten := by
    by_cases hemp : (q.filter isSelected).isEmpty
    · have h0 : q.filter isSelected = [] := List.isEmpty_iff.mp hemp
      simp [syncAllFarms, hemp, h0]
    · simp [syncAllFarms, hemp, syncLoop_trace]
  exact ⟨htr, by rw [htr, writes_of_interleaved]⟩

theorem applyUpdate_id (s : FarmStatus) (e : Option String) (now : Nat)
    (f : OfflineFarm) : (applyUpdate s e now f).id = f.id := rfl

theorem qfind_id {q : Queue} {i : Nat} {f : OfflineFarm}
    (h : qfind q i = some f) : f.id = i := by
  have h2 := List.find?_some h
  simpa using h2

theorem qfind_mem {q : Queue} {i : Nat} {f : OfflineFarm}
    (h : qfind q i = some f) : f ∈ q :=
  List.mem_of_find?_eq_some h

theorem qfind_update_ne (q : Queue) {i j : Nat} (s : FarmStatus)
    (e : Option String) (now : Nat) (h : i ≠ j) :
    qfind (updateFarmStatus q j s e now) i = qfind q i := by
  induction q with
  | nil => rfl
  | cons f q ih =>
    simp only [updateFarmStatus, List.map_cons, qfind] at ih ⊢
    by_cases hj : f.id = j
    · have hb : (f.id == i) = false := by
        simp [hj, Ne.symm h]
      have hb2 : ((applyUpdate s e now f).id == i) = false := hb
      rw [if_pos hj, List.find?_cons_of_neg _ (by simp [hb2]),
        List.find?_cons_of_neg _ (by simp [hb])]
      exact ih
    · rw [if_neg hj]
      by_cases hi : f.id = i
      · rw [List.find?_cons_of_pos _ (by simp [hi]),
          List.find?_cons_of_pos _ (by simp [hi])]
      · rw [List.find?_cons_of_neg _ (by simp [hi]),
          List.find?_cons_of_neg _ (by simp [hi])]
        exact ih

theorem qfind_update_self (q : Queue) (i : Nat) (s : FarmStatus)
    (e : Option String) (now : Nat) :
    qfind (updateFarmStatus q i s e now) i =
      (qfind q i).map (applyUpdate s e now) := by
  induction q with
  | nil => rfl
  | cons f q ih =>
    simp only [updateFarmStatus, List.map_cons, qfind] at ih ⊢
    by_cases hi : f.id = i
    · rw [if_pos hi, List.find?_cons_of_pos _ (by simp [hi, applyUpdate]),
        List.find?_cons_of_pos _ (by simp [hi])]
      rfl
    · rw [if_neg hi, List.find?_cons_of_neg _ (by simp [hi]),
        List.find?_cons_of_neg _ (by simp [hi])]
      exact ih

theorem qfind_remove_ne (q : Queue) {i j : Nat} (h : i ≠ j) :
    qfind (removeOfflineFarm q j) i = qfind q i := by
  induction q with
  | nil => rfl
  | cons f q ih =>
    simp only [removeOfflineFarm, List.filter_cons, qfind] at ih ⊢
    by_cases hj : f.id = j
    · have hb : (f.id == i) = false := by simp [hj, Ne.symm h]
      simp only [hj, beq_self_eq_true, Bool.not_true, if_false]
      rw [List.find?_cons_of_neg _ (by simp [hb])]
      exact ih
    · have hb : (!(f.id == j)) = true := by simp [hj]
      rw [hb, if_pos rfl]
      by_cases hi : f.id = i
      · rw [List.find?_cons_of_pos _ (by simp [hi]),
          List.find?_cons_of_pos _ (by simp [hi])]
      · rw [List.find?_cons_of_neg _ (by simp [hi]),
          List.find?_cons_of_neg _ (by simp [hi])]
        exact ih

theorem syncSingleFarm_queue_ne (r : RemoteWriter) (q : Queue)
    (g : OfflineFarm) (now : Nat) {i : Nat} (h : i ≠ g.id) :
    qfind (syncSingleFarm r q g now).1 i = qfind q i := by
  cases hr : r g.farmerId g.farmData with
  | ok =>
    simp only [syncSingleFarm, hr]
    rw [qfind_remove_ne _ h, qfind_update_ne _ _ _ _ h,
      qfind_update_ne _ _ _ _ h]
  | err msg =>
    simp only [syncSingleFarm, hr]
    rw [qfind_update_ne _ _ _ _ h, qfind_update_ne _ _ _ _ h]

theorem syncSingleFarm_queue_fail (r : RemoteWriter) (q : Queue)
    (g : OfflineFarm) (now : Nat) (msg : String)
    (hr : r g.farmerId g.farmData = .err msg) :
    qfind (syncSingleFarm r q g now).1 g.id =
      (qfind q g.id).map (failUpdate msg now) := by
  simp only [syncSingleFarm, hr]
  rw [qfind_update_self, qfind_update_self, Option.map_map]
  rcases qfind q g.id with _ | f
  · rfl
  · simp [applyUpdate, failUpdate, Function.comp]

theorem syncLoop_queue_not_mem (r : RemoteWriter) (now : Nat) :
    ∀ (gs : List OfflineFarm) (q : Queue) (i : Nat),
      (∀ g ∈ gs, g.id ≠ i) →
      qfind (syncLoop r now q gs).1 i = qfind q i := by
  intro gs
  induction gs with
  | nil => intro q i _; rfl
  | cons g gs ih =>
    intro q i h
    simp only [syncLoop]
    rw [ih _ i (fun x hx => h x (List.mem_cons_of_mem g hx)),
      syncSingleFarm_queue_ne r q g now
        (Ne.symm (h g (List.mem_cons_self g gs)))]

theorem syncLoop_queue_fail (r : RemoteWriter) (now : Nat) (g : OfflineFarm)
    (msg : String) (hr : r g.farmerId g.farmData = .err msg) :
    ∀ (as bs : List OfflineFarm) (q : Queue),
      (∀ x ∈ as, x.id ≠ g.id) → (∀ x ∈ bs, x.id ≠ g.id) →
      qfind (syncLoop r now q (as ++ g :: bs)).1 g.id =
        (qfind q g.id).map (failUpdate msg now) := by
  intro as
  induction as with
  | nil =>
    intro bs q _ hbs
    simp only [List.nil_append, syncLoop]
    rw [syncLoop_queue_not_mem r now bs _ g.id hbs,
      syncSingleFarm_queue_fail r q g now msg hr]
  | cons a as ih =>
    intro bs q has hbs
    rw [List.cons_append]
    simp only [syncLoop]
    rw [ih bs _ (fun x hx => has x (List.mem_cons_of_mem a hx)) hbs,
      syncSingleFarm_queue_ne r q a now
        (Ne.symm (has a (List.mem_cons_self a as)))]

theorem ids_updateFarmStatus (q : Queue) (i : Nat) (s : FarmStatus)
    (e : Option String) (now : Nat) :
    (updateFarmStatus q i s e now).map (fun f => f.id) =
      q.map (fun f => f.id) := by
  induction q with
  | nil => rfl
  | cons f q ih =>
    simp only [updateFarmStatus, List.map_cons] at ih ⊢
    by_cases hf : f.id = i <;> simp_all [applyUpdate]

theorem ids_sublist_syncSingleFarm (r : RemoteWriter) (q : Queue)
    (g : OfflineFarm) (now : Nat) :
    ((syncSingleFarm r q g now).1.map (fun f => f.id)).Sublist
      (q.map (fun f => f.id)) := by
  cases hr : r g.farmerId g.farmData with
  | ok =>
    simp only [syncSingleFarm, hr]
    have h1 : ((removeOfflineFarm (updateFarmStatus (updateFarmStatus q g.id
          FarmStatus.syncing none now) g.id FarmStatus.synced none now)
          g.id).map (fun f => f.id)).Sublist
        ((updateFarmStatus (updateFarmStatus q g.id FarmStatus.syncing none
          now) g.id FarmStatus.synced none now).map (fun f => f.id)) :=
      List.Sublist.map _ (List.filter_sublist _)
    rw [ids_updateFarmStatus, ids_updateFarmStatus] at h1
    exact h1
  | err msg =>
    simp only [syncSingleFarm, hr]
    rw [ids_updateFarmStatus, ids_updateFarmStatus]

theorem ids_sublist_syncLoop (r : RemoteWriter) (now : Nat) :
    ∀ (gs : List OfflineFarm) (q : Queue),
      ((syncLoop r now q gs).1.map (fun f => f.id)).Sublist
        (q.map (fun f => f.id)) := by
  intro gs
  induction gs with
  | nil => intro q; exact List.Sublist.refl _
  | cons g gs ih =>
    intro q
    simp only [syncLoop]
    exact (ih _).trans (ids_sublist_syncSingleFarm r q g now)

theorem ids_sublist_syncAllFarms (c : Bool) (r : RemoteWriter) (q : Queue)
    (now : Nat) :
    ((syncAllFarms c r q now).1.map (fun f => f.id)).Sublist
      (q.map (fun f => f.id)) := by
  cases c with
  | false => exact List.Sublist.refl _
  | true =>
    by_cases hemp : (q.filter isSelected).isEmpty <;>
      simp [syncAllFarms, hemp, ids_sublist_syncLoop, List.Sublist.refl]

theorem nodup_syncAllFarms (c : Bool) (r : RemoteWriter) (q : Queue)
    (now : Nat) (hnd : (q.map (fun f => f.id)).Nodup) :
    ((syncAllFarms c r q now).1.map (fun f => f.id)).Nodup :=
  List.Nodup.sublist (ids_sublist_syncAllFarms c r q now) hnd

theorem syncAllFarms_connected_queue (r : RemoteWriter) (q : Queue)
    (now : Nat) (h : (q.filter isSelected).isEmpty = false) :
    (syncAllFarms true r q now).1 =
      (syncLoop r now q (q.filter isSelected)).1 := by
  simp [syncAllFarms, h]

theorem syncAllFarms_fail_step (r : RemoteWriter) (q : Queue)
    (f : OfflineFarm) (msg : String) (now : Nat)
    (hnd : (q.map (fun x => x.id)).Nodup)
    (hf : qfind q f.id = some f) (hsel : isSelected f = true)
    (hr : r f.farmerId f.farmData = .err msg) :
    qfind (syncAllFarms true r q now).1 f.id =
      some (failUpdate msg now f) := by
  have hmem : f ∈ q.filter isSelected :=
    List.mem_filter.mpr ⟨qfind_mem hf, hsel⟩
  obtain ⟨as, bs, hsplit⟩ := List.append_of_mem hmem
  have hemp : (q.filter isSelected).isEmpty = false := by
    rw [hsplit]
    cases as <;> rfl
  have hndf : ((q.filter isSelected).map (fun x => x.id)).Nodup :=
    List.Nodup.sublist (List.Sublist.map _ (List.filter_sublist q)) hnd
  rw [hsplit, List.map_append, List.map_cons] at hndf
  rw [List.nodup_append] at hndf
  have has : ∀ x ∈ as, x.id ≠ f.id := by
    intro x hx heq
    refine hndf.2.2 (List.mem_map_of_mem _ hx) ?_
    rw [heq]
    exact List.mem_cons_self _ _
  have hbs : ∀ x ∈ bs, x.id ≠ f.id := by
    intro x hx heq
    have h2 := (List.nodup_cons.mp hndf.2.1).1
    refine h2 ?_
    rw [← heq]
    exact List.mem_map_of_mem _ hx
  rw [syncAllFarms_connected_queue r q now hemp, hsplit,
    syncLoop_queue_fail r now f msg hr as bs q has hbs, hf]
  rfl

theorem syncAllFarms_skip (c : Bool) (r : RemoteWriter) (q : Queue)
    (f : OfflineFarm) (now : Nat)
    (hnd : (q.map (fun x => x.id)).Nodup)
    (hf : qfind q f.id = some f) (hsel : isSelected f = false) :
    qfind (syncAllFarms c r q now).1 f.id = some f := by
  cases c with
  | false => exact hf
  | true =>
    by_cases hemp : (q.filter isSelected).isEmpty
    · have hq : (syncAllFarms true r q now).1 = q := by
        simp [syncAllFarms, hemp]
      rw [hq]
      exact hf
    · rw [syncAllFarms_connected_queue r q now (by simpa using hemp)]
      rw [syncLoop_queue_not_mem r now _ q f.id ?_]
      · exact hf
      · intro x hx heq
        rcases List.mem_filter.mp hx with ⟨hxq, hxsel⟩
        have hxf : x = f :=
          List.inj_on_of_nodup_map hnd hxq (qfind_mem hf) heq
        rw [hxf, hsel] at hxsel
        exact Bool.false_ne_true hxsel

theorem nodup_replayPasses (now : Nat) :
    ∀ (rs : List RemoteWriter) (q : Queue),
      (q.map (fun x => x.id)).Nodup →
      ((replayPasses now rs q).map (fun x => x.id)).Nodup := by
  intro rs
  induction rs with
  | nil => intro q h; exact h
  | cons r rs ih => intro q h; exact ih _ (nodup_syncAllFarms true r q now h)

theorem replayPasses_fail_iter (now : Nat) :
    ∀ (rs : List RemoteWriter) (q : Queue) (f : OfflineFarm),
      (q.map (fun x => x.id)).Nodup →
      qfind q f.id = some f →
      f.status = .failed →
      f.retryCount + rs.length ≤ 5 →
      (∀ r ∈ rs, ∃ m, r f.farmerId f.farmData = .err m) →
      ∃ g, qfind (replayPasses now rs q) f.id = some g ∧
        g.status = .failed ∧ g.retryCount = f.retryCount + rs.length ∧
        g.farmerId = f.farmerId ∧ g.farmData = f.farmData := by
  intro rs
  induction rs with
  | nil =>
    intro q f hnd hf hst hrc hfail
    exact ⟨f, hf, hst, (Nat.add_zero _).symm, rfl, rfl⟩
  | cons r rs ih =>
    intro q f hnd hf hst hrc hfail
    obtain ⟨m, hm⟩ := hfail r (List.mem_cons_self _ _)
    simp only [List.length_cons] at hrc
    have hsel : isSelected f = true := by
      simp only [isSelected, hst]
      simp
      omega
    have hstep := syncAllFarms_fail_step r q f m now hnd hf hsel hm
    have hnd1 := nodup_syncAllFarms true r q now hnd
    have hiter := ih (syncAllFarms true r q now).1 (failUpdate m now f) hnd1
      hstep rfl (by simp [failUpdate]; omega)
      (fun r' hr' => hfail r' (List.mem_cons_of_mem _ hr'))
    obtain ⟨g, hg, hgst, hgrc, hgfmr, hgfd⟩ := hiter
    refine ⟨g, hg, hgst, ?_, hgfmr, hgfd⟩
    simp only [failUpdate] at hgrc
    simp only [List.length_cons]
    omega

/-- Claim C4: an operation on which the replay routine fails 5 consecutive
times (starting from `pending` with `retryCount = 0`) ends with
`status = failed` and `retryCount = 5`; it no longer satisfies the
`retryCount < 5` selection filter, every subsequent automatic `syncAllFarms`
pass leaves its record unchanged, and a manual `retryFailedFarm` — which
never examines the retry count — still replays it via `syncSingleFarm`. -/
theorem syncAllFarms_retry_ceiling (q : Queue) (f : OfflineFarm)
    (rs : List RemoteWriter) (now : Nat)
    (hnd : (q.map (fun x => x.id)).Nodup)
    (hf : qfind q f.id = some f)
    (hst : f.status = .pending) (hrc : f.retryCount = 0)
    (hlen : rs.length = 5)
    (hfail : ∀ r ∈ rs, ∃ m, r f.farmerId f.farmData = .err m) :
    ∃ g, qfind (replayPasses now rs q) f.id = some g ∧
      g.status = .failed ∧ g.retryCount = 5 ∧ isSelected g = false ∧
      (∀ r2 now2,
        qfind (syncAllFarms true r2 (replayPasses now rs q) now2).1 f.id =
          some g) ∧
      (∀ r3 now3,
        retryFailedFarm (replayPasses now rs q) f.id true r3 now3 =
          .ok (syncSingleFarm r3 (replayPasses now rs q) g now3)) := by
  cases rs with
  | nil => simp at hlen
  | cons r rs' =>
    obtain ⟨m, hm⟩ := hfail r (List.mem_cons_self _ _)
    have hsel : isSelected f = true := by
      simp [isSelected, hst, hrc]
    have hstep := syncAllFarms_fail_step r q f m now hnd hf hsel hm
    have hnd1 := nodup_syncAllFarms true r q now hnd
    have hlen' : rs'.length = 4 := by simpa using hlen
    have hiter := replayPasses_fail_iter now rs' (syncAllFarms true r q now).1
      (failUpdate m now f) hnd1 hstep rfl
      (by simp [failUpdate, hrc, hlen'])
      (fun r' hr' => hfail r' (List.mem_cons_of_mem _ hr'))
    obtain ⟨g, hg, hgst, hgrc, hgfmr, hgfd⟩ := hiter
    have hrp : replayPasses now (r :: rs') q =
        replayPasses now rs' (syncAllFarms true r q now).1 := rfl
    have hgrc5 : g.retryCount = 5 := by
      simp only [failUpdate] at hgrc
      omega
    have hgselF : isSelected g = false := by
      simp [isSelected, hgrc5]
    have hq : qfind (replayPasses now (r :: rs') q) f.id = some g := by
      rw [hrp]
      exact hg
    have hgid : g.id = f.id := qfind_id hq
    have hndagg : ((replayPasses now (r :: rs') q).map
        (fun x => x.id)).Nodup := nodup_replayPasses now (r :: rs') q hnd
    refine ⟨g, hq, hgst, hgrc5, hgselF, ?_, ?_⟩
    · intro r2 now2
      have hq2 : qfind (replayPasses now (r :: rs') q) g.id = some g := by
        rw [hgid]
        exact hq
      have hskip := syncAllFarms_skip true r2 (replayPasses now (r :: rs') q)
        g now2 hndagg hq2 hgselF
      rw [← hgid]
      exact hskip
    · intro r3 now3
      simp [retryFailedFarm, hq, hgst]

theorem syncAllFarms_retry_ceiling_witness :
    ∃ g, qfind (replayPasses 0 (List.replicate 5 rejectAll)
        [⟨1, 7, 8, 0, .pending, 0, none, none⟩]) 1 = some g ∧
      g.status = .failed ∧ g.retryCount = 5 ∧ isSelected g = false ∧
      (∀ r2 now2,
        qfind (syncAllFarms true r2 (replayPasses 0
          (List.replicate 5 rejectAll)
          [⟨1, 7, 8, 0, .pending, 0, none, none⟩]) now2).1 1 = some g) ∧
      (∀ r3 now3,
        retryFailedFarm (replayPasses 0 (List.replicate 5 rejectAll)
            [⟨1, 7, 8, 0, .pending, 0, none, none⟩]) 1 true r3 now3 =
          .ok (syncSingleFarm r3 (replayPasses 0 (List.replicate 5 rejectAll)
            [⟨1, 7, 8, 0, .pending, 0, none, none⟩]) g now3)) := by
  exact syncAllFarms_retry_ceiling [⟨1, 7, 8, 0, .pending, 0, none, none⟩]
    ⟨1, 7, 8, 0, .pending, 0, none, none⟩ (List.replicate 5 rejectAll) 0
    (by decide) rfl rfl rfl rfl
    (fun r hr => ⟨"Network request failed", by
      rw [List.eq_of_mem_replicate hr]
      rfl⟩)

/-- Claim C10: `retryFailedFarm` checks its preconditions in the fixed
order — unknown id fails with `Farm not found`; a known farm whose status is
not `failed` fails with `Farm is not in failed state` regardless of
connectivity; a failed farm while offline fails with
`No network connection` — and it never examines the retry count: a failed
farm is replayed via `syncSingleFarm` for any accumulated `retryCount`, and
when that replay fails again the count is incremented, never reset. -/
theorem retryFailedFarm_spec (q : Queue) (i : Nat) (connected : Bool)
    (r : RemoteWriter) (now : Nat) :
    (qfind q i = none →
      retryFailedFarm q i connected r now = .err "Farm not found") ∧
    (∀ f, qfind q i = some f → f.status ≠ .failed →
      retryFailedFarm q i connected r now =
        .err "Farm is not in failed state") ∧
    (∀ f, qfind q i = some f → f.status = .failed → connected = false →
      retryFailedFarm q i connected r now = .err "No network connection") ∧
    (∀ f, qfind q i = some f → f.status = .failed → connected = true →
      retryFailedFarm q i connected r now =
        .ok (syncSingleFarm r q f now) ∧
      (∀ msg, r f.farmerId f.farmData = .err msg →
        qfind (syncSingleFarm r q f now).1 i =
          some (failUpdate msg now f))) := by
  refine ⟨?_, ?_, ?_, ?_⟩
  · intro h
    simp [retryFailedFarm, h]
  · intro f hf hst
    simp [retryFailedFarm, hf, hst]
  · intro f hf hst hc
    subst hc
    simp [retryFailedFarm, hf, hst]
  · intro f hf hst hc
    subst hc
    refine ⟨by simp [retryFailedFarm, hf, hst], ?_⟩
    intro msg hmsg
    have hid : f.id = i := qfind_id hf
    have h2 := syncSingleFarm_queue_fail r q f now msg hmsg
    rw [hid] at h2
    rw [h2, hf]
    rfl

theorem retryFailedFarm_spec_witness :
    retryFailedFarm [⟨1, 7, 8, 0, .failed, 5, none, none⟩] 1 true rejectAll
        3 =
      .ok (syncSingleFarm rejectAll [⟨1, 7, 8, 0, .failed, 5, none, none⟩]
        ⟨1, 7, 8, 0, .failed, 5, none, none⟩ 3) ∧
    qfind (syncSingleFarm rejectAll [⟨1, 7, 8, 0, .failed, 5, none, none⟩]
        ⟨1, 7, 8, 0, .failed, 5, none, none⟩ 3).1 1 =
      some (failUpdate "Network request failed" 3
        ⟨1, 7, 8, 0, .failed, 5, none, none⟩) := by
  have h := (retryFailedFarm_spec [⟨1, 7, 8, 0, .failed, 5, none, none⟩] 1
    true rejectAll 3).2.2.2 ⟨1, 7, 8, 0, .failed, 5, none, none⟩ rfl rfl rfl
  exact ⟨h.1, h.2 "Network request failed" rfl⟩

end OfflineSync
